import Mathlib

/-!
Verification development for the music cog of the Aurora-Bot repository
(`src/extensions/music.py`).

The embedding below translates the playback core of the cog into Lean:

* `Player` models the external discord.py stream player exactly as the cog
  observes and drives it: a `done` flag (`is_done()` / set by `stop()` or by
  natural end of media), a `paused` flag (`pause()` / `resume()`), and a
  `volume` (a true-division rational, as in `player.volume = value / 100`).
* `VoiceEntry` is `VoiceEntry.__init__` (music.py lines 10-14): the requester
  id, the text channel id, and the player.  User identities are opaque ids;
  two discord users are equal iff their ids are equal, so requesters are
  modelled by their id.
* `VoiceState` is `VoiceState.__init__` (lines 25-33): `current`,
  `voice` (the transport handle, `none` when not connected), the
  `play_next_song` event (`playNextSong : Bool`), the FIFO `songs` queue
  (an `asyncio.Queue`, modelled as a list with head = front), and the
  `skip_votes` set of user ids.  The extra field `waitingForCompletion`
  records where the `audio_player_task` coroutine is suspended: `false` when
  it is blocked at `self.songs.get()` (line 57), `true` when it is blocked at
  `self.play_next_song.wait()` (line 61).
* `Music` is the cog (lines 64-241): the `voice_states` registry is a
  key-unique association list mirroring the Python dict, and each command is
  translated in source order.  External outcomes (whether the transport
  connect succeeds, whether youtube-dl resolution succeeds, which voice
  channel the author is in) are passed as explicit parameters.
* Commands that forward calls to the external player additionally return the
  list of calls they forwarded (`SourceCall`), so that "no call forwarded to
  the source" is a statable property; the player state itself carries no
  call log.
-/

namespace AuroraMusic

/-- Calls the cog can forward to the external stream player. -/
inductive SourceCall
  | startCall
  | pauseCall
  | resumeCall
  | stopCall
deriving DecidableEq, Repr

/-- The external discord.py stream player, as observed by the cog:
`done` is what `is_done()` reports (set by `stop()` or by natural end of
media), `paused` is toggled by `pause()`/`resume()`, and `volume` is the
settable volume (`player.volume = value / 100` is true division, hence a
rational). -/
structure Player where
  done : Bool
  paused : Bool
  volume : Rat
deriving DecidableEq, Repr

/-- `player.stop()`: the player finishes; `is_done()` becomes true. -/
def Player.stop (p : Player) : Player := { p with done := true }

/-- `player.pause()`. -/
def Player.pause (p : Player) : Player := { p with paused := true }

/-- `player.resume()`. -/
def Player.resume (p : Player) : Player := { p with paused := false }

/-- `player.is_done()`. -/
def Player.is_done (p : Player) : Bool := p.done

/-- `VoiceEntry` (music.py lines 10-14): requester id, text channel id,
player. -/
structure VoiceEntry where
  requester : Nat
  channel : Nat
  player : Player
deriving DecidableEq, Repr

/-- `VoiceState` (music.py lines 25-33).  `waitingForCompletion` is the
suspension point of `audio_player_task`: `false` = blocked at
`songs.get()` (line 57), `true` = blocked at `play_next_song.wait()`
(line 61). -/
structure VoiceState where
  current : Option VoiceEntry
  voice : Option Nat
  playNextSong : Bool
  songs : List VoiceEntry
  skip_votes : Finset Nat
  waitingForCompletion : Bool
deriving DecidableEq

/-- The state built by `VoiceState.__init__` (lines 26-33): no current
entry, not connected, event unset, empty queue, empty vote set, and the
freshly created `audio_player_task` blocked at `songs.get()`. -/
def initialVoiceState : VoiceState :=
  ⟨none, none, false, [], ∅, false⟩

/-- `VoiceState.is_playing` (lines 35-40): false when `voice` or `current`
is `None`, else `not player.is_done()`. -/
def VoiceState.is_playing (s : VoiceState) : Bool :=
  match s.voice, s.current with
  | none, _ => false
  | _, none => false
  | some _, some c => !c.player.is_done

/-- `VoiceState.toggle_next` (lines 51-52): sets the `play_next_song`
event.  Invoked by discord.py as the player's `after` callback whenever the
player ends (naturally or via `stop()`). -/
def VoiceState.toggle_next (s : VoiceState) : VoiceState :=
  { s with playNextSong := true }

/-- `VoiceState.skip` (lines 46-49): clear `skip_votes`; if playing, call
`self.player.stop()` on the current entry's player, which triggers the
`after` callback (`toggle_next`). -/
def VoiceState.skip (s : VoiceState) : VoiceState :=
  let s1 : VoiceState := { s with skip_votes := ∅ }
  if s1.is_playing then
    match s1.current with
    | some c =>
        VoiceState.toggle_next { s1 with current := some { c with player := c.player.stop } }
    | none => s1
  else s1

/-- One resumption of `audio_player_task` at the top of its loop
(lines 55-60): clear the event, dequeue the head of `songs` into `current`,
announce it, call `player.start()`, and move to the wait at line 61.
Does nothing when the loop is suspended at the wait or the queue is empty. -/
def VoiceState.dequeueStep (s : VoiceState) : VoiceState :=
  if s.waitingForCompletion then s
  else
    match s.songs with
    | [] => s
    | e :: rest =>
        { s with playNextSong := false, current := some e, songs := rest,
                 waitingForCompletion := true }

/-- Natural end of the current media: the external player finishes
(`is_done()` becomes true) and discord.py invokes the `after` callback,
`toggle_next`, which sets the event.  No code of the cog runs here, so
`current` and `skip_votes` are untouched. -/
def VoiceState.finishCurrent (s : VoiceState) : VoiceState :=
  match s.current with
  | none => s
  | some c =>
      if c.player.done then s
      else VoiceState.toggle_next { s with current := some { c with player := c.player.stop } }

/-- The `play_next_song.wait()` at line 61 returning: when the loop is
suspended there and the event is set, the coroutine resumes and is back at
the top of the loop (ready for `dequeueStep`). -/
def VoiceState.completionStep (s : VoiceState) : VoiceState :=
  if s.waitingForCompletion && s.playNextSong then { s with waitingForCompletion := false }
  else s

/-- One full cycle of `audio_player_task` starting from the loop top with a
song queued: dequeue and start the head, let it run to its natural end, and
return from the wait.  Yields the entry that was dequeued into `current`
together with the state back at the loop top; `none` if no cycle can run. -/
def VoiceState.playCycle (s : VoiceState) : Option (VoiceEntry × VoiceState) :=
  if s.waitingForCompletion then none
  else
    match s.songs with
    | [] => none
    | _ :: _ =>
        (VoiceState.dequeueStep s).current.map fun e =>
          (e, ((VoiceState.dequeueStep s).finishCurrent).completionStep)

/-- The sequence of entries `audio_player_task` dequeues into `current`
when each song runs to its natural end, up to `fuel` cycles. -/
def VoiceState.playedOrder : Nat → VoiceState → List VoiceEntry
  | 0, _ => []
  | fuel + 1, s =>
      match VoiceState.playCycle s with
      | none => []
      | some (e, s2) => e :: VoiceState.playedOrder fuel s2

/-- Lookup in the `voice_states` dict (`self.voice_states.get(server.id)`). -/
def lookupVS : List (Nat × VoiceState) → Nat → Option VoiceState
  | [], _ => none
  | (k, v) :: rest, sid => if k = sid then some v else lookupVS rest sid

/-- Writing a channel's (mutated-in-place) state back into the dict:
replaces the binding for `sid`, leaving everything else alone. -/
def setVS (sid : Nat) (st : VoiceState) : List (Nat × VoiceState) → List (Nat × VoiceState)
  | [] => []
  | (k, v) :: rest => if k = sid then (k, st) :: rest else (k, v) :: setVS sid st rest

/-- `del self.voice_states[server.id]`: removes the binding for `sid`. -/
def eraseVS (sid : Nat) : List (Nat × VoiceState) → List (Nat × VoiceState)
  | [] => []
  | (k, v) :: rest => if k = sid then rest else (k, v) :: eraseVS sid rest

/-- The `Music` cog (line 64): the per-server registry of voice states,
a key-unique association list mirroring the Python dict. -/
structure Music where
  voice_states : List (Nat × VoiceState)
deriving DecidableEq

/-- `Music.get_voice_state` (lines 70-76): return the existing state, or
create a fresh `VoiceState` (whose `audio_player_task` starts immediately)
and insert it into the registry. -/
def Music.get_voice_state (m : Music) (sid : Nat) : VoiceState × Music :=
  match lookupVS m.voice_states sid with
  | some st => (st, m)
  | none => (initialVoiceState, ⟨m.voice_states ++ [(sid, initialVoiceState)]⟩)

/-- Outcome of the `skip` command, one constructor per `bot.say` branch of
lines 212-230. -/
inductive VoteOutcome
  | notPlaying
  | forced
  | alreadyVoted
  | quorumReached
  | voteRecorded (n : Nat)
deriving DecidableEq, Repr

/-- Body of the `skip` command (lines 212-230) acting on one channel's
state.  Voter/requester comparison is by user id (discord users are equal
iff their ids are). -/
def skipBody (voterId : Nat) (s : VoiceState) : VoteOutcome × VoiceState :=
  if !s.is_playing then (.notPlaying, s)
  else
    match s.current with
    | none => (.notPlaying, s)
    | some cur =>
        if voterId = cur.requester then (.forced, s.skip)
        else if voterId ∈ s.skip_votes then (.alreadyVoted, s)
        else
          let votes := insert voterId s.skip_votes
          let total := votes.card
          if 3 ≤ total then (.quorumReached, VoiceState.skip { s with skip_votes := votes })
          else (.voteRecorded total, { s with skip_votes := votes })

/-- `Music.skip` (lines 205-230): fetch (or lazily create) the channel
state and run the vote/skip logic on it. -/
def Music.skip (m : Music) (sid voterId : Nat) : VoteOutcome × Music :=
  let r0 := m.get_voice_state sid
  let r := skipBody voterId r0.1
  (r.1, ⟨setVS sid r.2 r0.2.voice_states⟩)

/-- `Music.pause` (lines 170-176): if `state.is_playing()`, forward
`player.pause()` to the current player.  Also returns the list of calls
forwarded to the external player. -/
def Music.pause (m : Music) (sid : Nat) : Music × List SourceCall :=
  let r0 := m.get_voice_state sid
  if r0.1.is_playing then
    match r0.1.current with
    | some c =>
        (⟨setVS sid { r0.1 with current := some { c with player := c.player.pause } }
            r0.2.voice_states⟩, [SourceCall.pauseCall])
    | none => (r0.2, [])
  else (r0.2, [])

/-- `Music.resume` (lines 178-184): if `state.is_playing()`, forward
`player.resume()`.  Also returns the forwarded calls. -/
def Music.resume (m : Music) (sid : Nat) : Music × List SourceCall :=
  let r0 := m.get_voice_state sid
  if r0.1.is_playing then
    match r0.1.current with
    | some c =>
        (⟨setVS sid { r0.1 with current := some { c with player := c.player.resume } }
            r0.2.voice_states⟩, [SourceCall.resumeCall])
    | none => (r0.2, [])
  else (r0.2, [])

/-- `Music.volume` (lines 160-168): if playing, `player.volume = value / 100`
(true division, no clamping). -/
def Music.volume (m : Music) (sid : Nat) (value : Int) : Music :=
  let r0 := m.get_voice_state sid
  if r0.1.is_playing then
    match r0.1.current with
    | some c =>
        ⟨setVS sid
          { r0.1 with current := some { c with player := { c.player with volume := (value : Rat) / 100 } } }
          r0.2.voice_states⟩
    | none => r0.2
  else r0.2

/-- `Music.stop` (lines 186-203): if playing, `player.stop()` (mutating the
stored state, and firing the `after` callback); then, inside the
`try`/bare-`except`, cancel the loop task, delete the registry binding and
disconnect the transport — any failure there (e.g. `state.voice` being
`None`) is swallowed. -/
def Music.stop (m : Music) (sid : Nat) : Music :=
  let r0 := m.get_voice_state sid
  let state2 :=
    if r0.1.is_playing then
      match r0.1.current with
      | some c =>
          VoiceState.toggle_next { r0.1 with current := some { c with player := c.player.stop } }
      | none => r0.1
    else r0.1
  ⟨eraseVS sid (setVS sid state2 r0.2.voice_states)⟩

/-- What the `playing` command reports (lines 232-241). -/
inductive Status
  | notPlaying
  | nowPlaying (e : VoiceEntry)
deriving DecidableEq, Repr

/-- `Music.playing` (lines 232-241): report `NOT_PLAYING` when `current` is
`None`, else announce `current` as now playing. -/
def Music.playing (m : Music) (sid : Nat) : Status × Music :=
  let r0 := m.get_voice_state sid
  match r0.1.current with
  | none => (.notPlaying, r0.2)
  | some c => (.nowPlaying c, r0.2)

/-- Outcome of the `join` command (lines 98-111). -/
inductive JoinResult
  | ready
  | inAnotherVoiceChannel
  | notAVoiceChannel
deriving DecidableEq, Repr

/-- `Music.join` + `create_voice_client` (lines 78-81, 98-111): connect
FIRST (`join_voice_channel`), and only on success fetch/create the state
and store the transport.  `channel = none` means `join_voice_channel(None)`
raises `InvalidArgument`; `connectOk = false` models `ClientException`.
In both failure cases the registry is untouched. -/
def Music.join (m : Music) (sid : Nat) (channel : Option Nat) (connectOk : Bool) :
    JoinResult × Music :=
  match channel with
  | none => (.notAVoiceChannel, m)
  | some ch =>
      if connectOk then
        let r0 := m.get_voice_state sid
        (.ready, ⟨setVS sid { r0.1 with voice := some ch } r0.2.voice_states⟩)
      else (.inAnotherVoiceChannel, m)

/-- Outcome of the `play` command (lines 129-158). -/
inductive PlayResult
  | enqueued
  | summonFailed
  | clientException
  | ytdlError
deriving DecidableEq, Repr

/-- The tail of `play` (lines 149-158): attempt `create_ytdl_player`; on
failure report the error (state untouched beyond what already happened);
on success set `player.volume = 0.6`, build the `VoiceEntry` and
`songs.put(entry)` (FIFO append). -/
def playYtdl (m : Music) (sid authorId msgChannel : Nat) (state : VoiceState)
    (ytdl : Option Player) : PlayResult × Music :=
  match ytdl with
  | none => (.ytdlError, m)
  | some p =>
      let p2 := { p with volume := (0.6 : Rat) }
      let entry : VoiceEntry := ⟨authorId, msgChannel, p2⟩
      (.enqueued, ⟨setVS sid { state with songs := state.songs ++ [entry] } m.voice_states⟩)

/-- `Music.play` (lines 129-158).  Line 138 calls `get_voice_state` FIRST,
creating the registry entry before anything can fail.  If `state.voice` is
`None`, `summon` is invoked (lines 114-127): it fails returning `False`
when the author is in no voice channel (`authorVoiceChannel = none`), and
`join_voice_channel` may raise (`connectOk = false`), which propagates out
of `play`.  Only then is the song resolved and enqueued. -/
def Music.play (m : Music) (sid authorId msgChannel : Nat)
    (authorVoiceChannel : Option Nat) (connectOk : Bool) (ytdl : Option Player) :
    PlayResult × Music :=
  let r0 := m.get_voice_state sid
  match r0.1.voice with
  | none =>
      match authorVoiceChannel with
      | none => (.summonFailed, r0.2)
      | some ch =>
          if connectOk then
            let st2 := { r0.1 with voice := some ch }
            playYtdl ⟨setVS sid st2 r0.2.voice_states⟩ sid authorId msgChannel st2 ytdl
          else (.clientException, r0.2)
  | some _ => playYtdl r0.2 sid authorId msgChannel r0.1 ytdl

/-- The volume of the current entry of channel `sid`, if any. -/
def currentVolume (m : Music) (sid : Nat) : Option Rat :=
  match lookupVS m.voice_states sid with
  | some st => st.current.map fun c => c.player.volume
  | none => none

end AuroraMusic

namespace AuroraMusic

theorem lookupVS_setVS (l : List (Nat × VoiceState)) (sid : Nat) (st : VoiceState) :
    lookupVS (setVS sid st l) sid = (lookupVS l sid).map fun _ => st := by
  induction l with
  | nil => simp [lookupVS, setVS]
  | cons kv rest ih =>
      obtain ⟨k, v⟩ := kv
      by_cases hk : k = sid <;> simp [lookupVS, setVS, hk, ih]

theorem setVS_lookup_eq {l : List (Nat × VoiceState)} {sid : Nat} {st : VoiceState}
    (h : lookupVS l sid = some st) : setVS sid st l = l := by
  induction l with
  | nil => rfl
  | cons kv rest ih =>
      obtain ⟨k, v⟩ := kv
      by_cases hk : k = sid
      · simp [lookupVS, hk] at h
        simp [setVS, hk, h]
      · simp [lookupVS, hk] at h
        simp [setVS, hk, ih h]

theorem setVS_setVS (l : List (Nat × VoiceState)) (sid : Nat) (st st' : VoiceState) :
    setVS sid st (setVS sid st' l) = setVS sid st l := by
  induction l with
  | nil => rfl
  | cons kv rest ih =>
      obtain ⟨k, v⟩ := kv
      by_cases hk : k = sid <;> simp [setVS, hk, ih]

theorem lookupVS_eq_none {l : List (Nat × VoiceState)} {sid : Nat}
    (h : sid ∉ l.map Prod.fst) : lookupVS l sid = none := by
  induction l with
  | nil => rfl
  | cons kv rest ih =>
      obtain ⟨k, v⟩ := kv
      simp only [List.map_cons, List.mem_cons] at h
      push_neg at h
      simp [lookupVS, Ne.symm h.1, ih h.2]

theorem eraseVS_append {l : List (Nat × VoiceState)} {sid : Nat} {st : VoiceState}
    (h : lookupVS l sid = none) : eraseVS sid (l ++ [(sid, st)]) = l := by
  induction l with
  | nil => simp [eraseVS]
  | cons kv rest ih =>
      obtain ⟨k, v⟩ := kv
      by_cases hk : k = sid
      · simp [lookupVS, hk] at h
      · simp [lookupVS, hk] at h
        simp [eraseVS, hk, ih h]

theorem setVS_append_last {l : List (Nat × VoiceState)} {sid : Nat} {st v : VoiceState}
    (h : lookupVS l sid = none) : setVS sid st (l ++ [(sid, v)]) = l ++ [(sid, st)] := by
  induction l with
  | nil => simp [setVS]
  | cons kv rest ih =>
      obtain ⟨k, w⟩ := kv
      by_cases hk : k = sid
      · simp [lookupVS, hk] at h
      · simp [lookupVS, hk] at h
        simp [setVS, hk, ih h]

theorem setVS_keys (l : List (Nat × VoiceState)) (sid : Nat) (st : VoiceState) :
    (setVS sid st l).map Prod.fst = l.map Prod.fst := by
  induction l with
  | nil => rfl
  | cons kv rest ih =>
      obtain ⟨k, v⟩ := kv
      by_cases hk : k = sid <;> simp [setVS, hk, ih]

theorem lookupVS_eraseVS_nodup {l : List (Nat × VoiceState)} {sid : Nat}
    (h : (l.map Prod.fst).Nodup) : lookupVS (eraseVS sid l) sid = none := by
  induction l with
  | nil => rfl
  | cons kv rest ih =>
      obtain ⟨k, v⟩ := kv
      simp only [List.map_cons, List.nodup_cons] at h
      by_cases hk : k = sid
      · subst hk
        simpa [eraseVS] using lookupVS_eq_none h.1
      · simp [eraseVS, hk, lookupVS, ih h.2]

theorem is_playing_iff (s : VoiceState) :
    s.is_playing = true ↔
      ∃ v c, s.voice = some v ∧ s.current = some c ∧ c.player.done = false := by
  unfold VoiceState.is_playing Player.is_done
  rcases hv : s.voice with _ | v <;> rcases hc : s.current with _ | c <;> simp

end AuroraMusic

namespace AuroraMusic

theorem skip_eq_of_playing {s : VoiceState} {v : Nat} {c : VoiceEntry}
    (hv : s.voice = some v) (hc : s.current = some c) (hd : c.player.done = false) :
    VoiceState.skip s =
      { s with skip_votes := ∅,
               current := some { c with player := { c.player with done := true } },
               playNextSong := true } := by
  simp [VoiceState.skip, VoiceState.is_playing, VoiceState.toggle_next, Player.stop,
    Player.is_done, hv, hc, hd]

theorem skip_eq (s : VoiceState) :
    VoiceState.skip s = { s with skip_votes := ∅ } ∨
      ∃ c, s.current = some c ∧
        VoiceState.skip s =
          { s with skip_votes := ∅,
                   current := some { c with player := { c.player with done := true } },
                   playNextSong := true } := by
  obtain ⟨cur, voice, ev, songs, votes, w⟩ := s
  rcases cur with _ | c
  · left
    simp [VoiceState.skip, VoiceState.is_playing]
  · rcases voice with _ | v
    · left
      simp [VoiceState.skip, VoiceState.is_playing]
    · by_cases hd : c.player.done
      · left
        simp [VoiceState.skip, VoiceState.is_playing, Player.is_done, hd]
      · right
        refine ⟨c, rfl, ?_⟩
        simp [VoiceState.skip, VoiceState.is_playing, Player.is_done, Player.stop,
          VoiceState.toggle_next, hd]

theorem skip_songs (s : VoiceState) : (VoiceState.skip s).songs = s.songs := by
  rcases skip_eq s with h | ⟨c, hc, h⟩ <;> simp [h]

theorem skip_current_requester (s : VoiceState) :
    (VoiceState.skip s).current.map VoiceEntry.requester = s.current.map VoiceEntry.requester := by
  rcases skip_eq s with h | ⟨c, hc, h⟩
  · simp [h]
  · simp [h, hc]

theorem skip_skip_votes (s : VoiceState) : (VoiceState.skip s).skip_votes = ∅ := by
  rcases skip_eq s with h | ⟨c, hc, h⟩ <;> simp [h]

theorem skipBody_requester {s : VoiceState} {v : Nat} {c : VoiceEntry} {voter : Nat}
    (hv : s.voice = some v) (hc : s.current = some c) (hd : c.player.done = false)
    (hr : voter = c.requester) :
    skipBody voter s = (.forced, VoiceState.skip s) := by
  simp [skipBody, VoiceState.is_playing, Player.is_done, hv, hc, hd, hr]

theorem skipBody_dup {s : VoiceState} {v : Nat} {c : VoiceEntry} {voter : Nat}
    (hv : s.voice = some v) (hc : s.current = some c) (hd : c.player.done = false)
    (hr : voter ≠ c.requester) (hm : voter ∈ s.skip_votes) :
    skipBody voter s = (.alreadyVoted, s) := by
  simp [skipBody, VoiceState.is_playing, Player.is_done, hv, hc, hd, hr, hm]

theorem skipBody_vote {s : VoiceState} {v : Nat} {c : VoiceEntry} {voter : Nat}
    (hv : s.voice = some v) (hc : s.current = some c) (hd : c.player.done = false)
    (hr : voter ≠ c.requester) (hm : voter ∉ s.skip_votes)
    (hcard : (insert voter s.skip_votes).card < 3) :
    skipBody voter s =
      (.voteRecorded (insert voter s.skip_votes).card,
       { s with skip_votes := insert voter s.skip_votes }) := by
  simp [skipBody, VoiceState.is_playing, Player.is_done, hv, hc, hd, hr, hm,
    Nat.not_le.mpr hcard]
  rw [Finset.card_insert_of_not_mem hm] at hcard
  omega

theorem skipBody_quorum {s : VoiceState} {v : Nat} {c : VoiceEntry} {voter : Nat}
    (hv : s.voice = some v) (hc : s.current = some c) (hd : c.player.done = false)
    (hr : voter ≠ c.requester) (hm : voter ∉ s.skip_votes)
    (hcard : 3 ≤ (insert voter s.skip_votes).card) :
    skipBody voter s =
      (.quorumReached, VoiceState.skip { s with skip_votes := insert voter s.skip_votes }) := by
  simp [skipBody, VoiceState.is_playing, Player.is_done, hv, hc, hd, hr, hm, hcard]
  rw [Finset.card_insert_of_not_mem hm] at hcard
  omega

theorem music_skip_eq {m : Music} {sid : Nat} {s : VoiceState}
    (h : lookupVS m.voice_states sid = some s) (voter : Nat) :
    Music.skip m sid voter =
      ((skipBody voter s).1, ⟨setVS sid (skipBody voter s).2 m.voice_states⟩) := by
  simp [Music.skip, Music.get_voice_state, h]

end AuroraMusic

namespace AuroraMusic

/-- A fresh, still-playing example player. -/
def exPlayer : Player := ⟨false, false, 1⟩

/-- Example entry requested by user 0 in text channel 9. -/
def exEntryA : VoiceEntry := ⟨0, 9, exPlayer⟩

/-- Example entry requested by user 1 in text channel 9. -/
def exEntryB : VoiceEntry := ⟨1, 9, exPlayer⟩

/-- A channel state in the middle of playing `exEntryA`, with `exEntryB`
queued, connected to voice channel 0, no votes yet. -/
def exState : VoiceState := ⟨some exEntryA, some 0, false, [exEntryB], ∅, true⟩

/-- A registry holding `exState` for server 7. -/
def exMusic : Music := ⟨[(7, exState)]⟩

/-- C2: a vote-skip issued by the playing entry's own requester returns the
Forced outcome (the `SKIP_REQUESTER` branch) and immediately ends the entry
via `VoiceState.skip`: the vote set is cleared and the current source is
stopped, regardless of how many votes were already in `skip_votes`, and the
requester's id is never added to `skip_votes`. -/
theorem c2_requester_force_skip (m : Music) (sid voterId : Nat) (s : VoiceState)
    (cur : VoiceEntry) (h : lookupVS m.voice_states sid = some s)
    (hc : s.current = some cur) (hp : s.is_playing = true)
    (hr : voterId = cur.requester) :
    (Music.skip m sid voterId).1 = VoteOutcome.forced
    ∧ lookupVS (Music.skip m sid voterId).2.voice_states sid = some (VoiceState.skip s)
    ∧ (VoiceState.skip s).skip_votes = ∅
    ∧ (VoiceState.skip s).current.map (fun e => e.player.done) = some true
    ∧ (VoiceState.skip s).songs = s.songs
    ∧ voterId ∉ (VoiceState.skip s).skip_votes := by
  obtain ⟨v, cc, hv, hc2, hd⟩ := (is_playing_iff s).mp hp
  rw [hc] at hc2
  obtain rfl : cur = cc := Option.some.inj hc2
  have hbody : skipBody voterId s = (.forced, VoiceState.skip s) :=
    skipBody_requester hv hc hd hr
  have hms : Music.skip m sid voterId =
      (.forced, ⟨setVS sid (VoiceState.skip s) m.voice_states⟩) := by
    rw [music_skip_eq h voterId, hbody]
  refine ⟨by rw [hms], ?_, skip_skip_votes s, ?_, skip_songs s, ?_⟩
  · rw [hms]
    simp [lookupVS_setVS, h]
  · rw [skip_eq_of_playing hv hc hd]
    rfl
  · simp [skip_skip_votes s]

/-- C2 witness: the requester of the playing example entry force-skips. -/
theorem c2_requester_force_skip_witness :
    (Music.skip exMusic 7 0).1 = VoteOutcome.forced
    ∧ lookupVS (Music.skip exMusic 7 0).2.voice_states 7 = some (VoiceState.skip exState)
    ∧ (VoiceState.skip exState).skip_votes = ∅
    ∧ (VoiceState.skip exState).current.map (fun e => e.player.done) = some true
    ∧ (VoiceState.skip exState).songs = exState.songs
    ∧ 0 ∉ (VoiceState.skip exState).skip_votes :=
  c2_requester_force_skip exMusic 7 0 exState exEntryA (by decide) (by decide)
    (by decide) (by decide)

end AuroraMusic

namespace AuroraMusic

/-- C1: vote-skip with quorum 3 on a playing entry with an empty vote set:
distinct non-requester voters a and b yield `VoteRecorded 1` then
`VoteRecorded 2`; a duplicate vote by a yields `AlreadyVoted` and changes
no state; a third distinct voter c yields `QuorumReached`, after which the
vote set is empty, the current entry's source is stopped (ended), and the
queue is untouched. -/
theorem c1_vote_quorum (m : Music) (sid : Nat) (s : VoiceState) (cur : VoiceEntry)
    (a b c : Nat) (h : lookupVS m.voice_states sid = some s)
    (hc : s.current = some cur) (hp : s.is_playing = true) (h0 : s.skip_votes = ∅)
    (ha : a ≠ cur.requester) (hb : b ≠ cur.requester) (hcr : c ≠ cur.requester)
    (hab : a ≠ b) (hac : a ≠ c) (hbc : b ≠ c) :
    (Music.skip m sid a).1 = VoteOutcome.voteRecorded 1
    ∧ (Music.skip (Music.skip m sid a).2 sid b).1 = VoteOutcome.voteRecorded 2
    ∧ (Music.skip (Music.skip m sid a).2 sid a).1 = VoteOutcome.alreadyVoted
    ∧ (Music.skip (Music.skip m sid a).2 sid a).2 = (Music.skip m sid a).2
    ∧ (Music.skip (Music.skip (Music.skip m sid a).2 sid b).2 sid c).1
        = VoteOutcome.quorumReached
    ∧ (∃ sf,
        lookupVS (Music.skip (Music.skip (Music.skip m sid a).2 sid b).2 sid c).2.voice_states
            sid = some sf
        ∧ sf.skip_votes = ∅
        ∧ sf.current.map (fun e => e.player.done) = some true
        ∧ sf.songs = s.songs) := by
  obtain ⟨v, cc, hv, hc2, hd⟩ := (is_playing_iff s).mp hp
  rw [hc] at hc2
  obtain rfl : cur = cc := Option.some.inj hc2
  -- first vote
  have hm1 : a ∉ s.skip_votes := by
    rw [h0]
    exact Finset.not_mem_empty a
  have hcard1 : (insert a s.skip_votes).card = 1 := by
    rw [h0]
    simp
  have hbody1 : skipBody a s =
      (.voteRecorded 1, { s with skip_votes := insert a s.skip_votes }) := by
    rw [skipBody_vote hv hc hd ha hm1 (by omega), hcard1]
  have hms1 : Music.skip m sid a =
      (.voteRecorded 1,
       ⟨setVS sid { s with skip_votes := insert a s.skip_votes } m.voice_states⟩) := by
    rw [music_skip_eq h a, hbody1]
  have hl1 : lookupVS (Music.skip m sid a).2.voice_states sid
      = some { s with skip_votes := insert a s.skip_votes } := by
    rw [hms1]
    simp [lookupVS_setVS, h]
  have hv1 : ({ s with skip_votes := insert a s.skip_votes } : VoiceState).voice = some v := hv
  have hc1 : ({ s with skip_votes := insert a s.skip_votes } : VoiceState).current = some cur :=
    hc
  have hvotes1 : ({ s with skip_votes := insert a s.skip_votes } : VoiceState).skip_votes
      = {a} := by
    rw [h0]
    rfl
  -- second vote
  have hm2 : b ∉ ({ s with skip_votes := insert a s.skip_votes } : VoiceState).skip_votes := by
    rw [hvotes1]
    simp [Ne.symm hab]
  have hcard2 :
      (insert b ({ s with skip_votes := insert a s.skip_votes } : VoiceState).skip_votes).card
        = 2 := by
    rw [hvotes1, Finset.card_insert_of_not_mem (by simp [Ne.symm hab]), Finset.card_singleton]
  have hbody2 : skipBody b { s with skip_votes := insert a s.skip_votes } =
      (.voteRecorded 2,
       { s with skip_votes := insert b (insert a s.skip_votes) }) := by
    rw [skipBody_vote hv1 hc1 hd hb hm2 (by omega), hcard2]
  have hms2 : Music.skip (Music.skip m sid a).2 sid b =
      (.voteRecorded 2,
       ⟨setVS sid { s with skip_votes := insert b (insert a s.skip_votes) }
          (Music.skip m sid a).2.voice_states⟩) := by
    rw [music_skip_eq hl1 b, hbody2]
  have hl2 : lookupVS (Music.skip (Music.skip m sid a).2 sid b).2.voice_states sid
      = some { s with skip_votes := insert b (insert a s.skip_votes) } := by
    rw [hms2]
    simp [lookupVS_setVS, hl1]
  -- duplicate vote by a
  have hdupmem : a ∈ ({ s with skip_votes := insert a s.skip_votes } : VoiceState).skip_votes := by
    rw [hvotes1]
    simp
  have hbodydup : skipBody a { s with skip_votes := insert a s.skip_votes } =
      (.alreadyVoted, { s with skip_votes := insert a s.skip_votes }) :=
    skipBody_dup hv1 hc1 hd ha hdupmem
  have hmsdup : Music.skip (Music.skip m sid a).2 sid a =
      (.alreadyVoted, (Music.skip m sid a).2) := by
    rw [music_skip_eq hl1 a, hbodydup, hms1]
    simp [setVS_setVS]
  -- third vote
  have hv2 : ({ s with skip_votes := insert b (insert a s.skip_votes) } : VoiceState).voice
      = some v := hv
  have hc2b : ({ s with skip_votes := insert b (insert a s.skip_votes) } : VoiceState).current
      = some cur := hc
  have hvotes2 :
      ({ s with skip_votes := insert b (insert a s.skip_votes) } : VoiceState).skip_votes
        = insert b {a} := by
    rw [h0]
    rfl
  have hm3 :
      c ∉ ({ s with skip_votes := insert b (insert a s.skip_votes) } : VoiceState).skip_votes := by
    rw [hvotes2]
    simp [Ne.symm hbc, Ne.symm hac]
  have hcard3 :
      (insert c
        ({ s with skip_votes := insert b (insert a s.skip_votes) } : VoiceState).skip_votes).card
        = 3 := by
    rw [hvotes2, Finset.card_insert_of_not_mem (by simp [Ne.symm hbc, Ne.symm hac]),
      Finset.card_insert_of_not_mem (by simp [Ne.symm hab]), Finset.card_singleton]
  have hbody3 : skipBody c { s with skip_votes := insert b (insert a s.skip_votes) } =
      (.quorumReached,
       VoiceState.skip { s with skip_votes := insert c (insert b (insert a s.skip_votes)) }) :=
    skipBody_quorum hv2 hc2b hd hcr hm3 (by omega)
  have hms3 : Music.skip (Music.skip (Music.skip m sid a).2 sid b).2 sid c =
      (.quorumReached,
       ⟨setVS sid
          (VoiceState.skip { s with skip_votes := insert c (insert b (insert a s.skip_votes)) })
          (Music.skip (Music.skip m sid a).2 sid b).2.voice_states⟩) := by
    rw [music_skip_eq hl2 c, hbody3]
  have hv3 : ({ s with skip_votes := insert c (insert b (insert a s.skip_votes)) } :
      VoiceState).voice = some v := hv
  have hc3 : ({ s with skip_votes := insert c (insert b (insert a s.skip_votes)) } :
      VoiceState).current = some cur := hc
  refine ⟨by rw [hms1], by rw [hms2], by rw [hmsdup], by rw [hmsdup], by rw [hms3],
    ⟨VoiceState.skip { s with skip_votes := insert c (insert b (insert a s.skip_votes)) },
      ?_, skip_skip_votes _, ?_, ?_⟩⟩
  · rw [hms3]
    simp [lookupVS_setVS, hl2]
  · rw [skip_eq_of_playing hv3 hc3 hd]
    rfl
  · rw [skip_songs]

/-- C1 witness: voters 1, 2, 3 against the example playing entry requested
by user 0. -/
theorem c1_vote_quorum_witness :
    (Music.skip exMusic 7 1).1 = VoteOutcome.voteRecorded 1
    ∧ (Music.skip (Music.skip exMusic 7 1).2 7 2).1 = VoteOutcome.voteRecorded 2
    ∧ (Music.skip (Music.skip exMusic 7 1).2 7 1).1 = VoteOutcome.alreadyVoted
    ∧ (Music.skip (Music.skip exMusic 7 1).2 7 1).2 = (Music.skip exMusic 7 1).2
    ∧ (Music.skip (Music.skip (Music.skip exMusic 7 1).2 7 2).2 7 3).1
        = VoteOutcome.quorumReached
    ∧ (∃ sf,
        lookupVS (Music.skip (Music.skip (Music.skip exMusic 7 1).2 7 2).2 7 3).2.voice_states
            7 = some sf
        ∧ sf.skip_votes = ∅
        ∧ sf.current.map (fun e => e.player.done) = some true
        ∧ sf.songs = exState.songs) :=
  c1_vote_quorum exMusic 7 exState exEntryA 1 2 3 (by decide) (by decide) (by decide)
    (by decide) (by decide) (by decide) (by decide) (by decide) (by decide) (by decide)

end AuroraMusic

namespace AuroraMusic

/-- C3 counterexample: with `exEntryB` queued and a vote by user 5 recorded
against the playing `exEntryA`, the natural completion of `exEntryA` takes
the channel out of Playing (`is_playing` becomes false) yet leaves
`current` non-null and `skip_votes` non-empty; the vote is still in the
vote set seen by the next entry after it is dequeued. -/
theorem c3_vote_leak_counterexample :
    (skipBody 5 exState).1 = VoteOutcome.voteRecorded 1
    ∧ (skipBody 5 exState).2.finishCurrent.is_playing = false
    ∧ (skipBody 5 exState).2.finishCurrent.current ≠ none
    ∧ (skipBody 5 exState).2.finishCurrent.skip_votes ≠ ∅
    ∧ (skipBody 5 exState).2.finishCurrent.completionStep.dequeueStep.current = some exEntryB
    ∧ (skipBody 5 exState).2.finishCurrent.completionStep.dequeueStep.skip_votes = {5} := by
  decide

/-- C3 amended: `skip_votes` is cleared exactly by forced skips — every
path through `VoiceState.skip` empties it — but on the natural-completion
path (player finishes, the wait returns, the next entry is dequeued)
neither `skip_votes` nor `current` is reset: votes persist into the next
entry's round, and `current` keeps the finished entry until the next
dequeue replaces it. -/
theorem c3_vote_clearing_amended :
    (∀ s : VoiceState, (VoiceState.skip s).skip_votes = ∅)
    ∧ (∀ s : VoiceState,
        s.finishCurrent.skip_votes = s.skip_votes
        ∧ s.completionStep.skip_votes = s.skip_votes
        ∧ s.dequeueStep.skip_votes = s.skip_votes)
    ∧ (∀ s : VoiceState,
        s.finishCurrent.current.isSome = s.current.isSome
        ∧ s.completionStep.current = s.current) := by
  refine ⟨skip_skip_votes, fun s => ⟨?_, ?_, ?_⟩, fun s => ⟨?_, ?_⟩⟩
  · unfold VoiceState.finishCurrent VoiceState.toggle_next
    rcases hc : s.current with _ | c
    · rfl
    · by_cases hd : c.player.done <;> simp [hd]
  · unfold VoiceState.completionStep
    by_cases hw : s.waitingForCompletion && s.playNextSong <;> simp [hw]
  · unfold VoiceState.dequeueStep
    by_cases hw : s.waitingForCompletion
    · simp [hw]
    · rcases hs : s.songs with _ | ⟨e, rest⟩ <;> simp [hw, hs]
  · unfold VoiceState.finishCurrent VoiceState.toggle_next
    rcases hc : s.current with _ | c
    · simp [hc]
    · by_cases hd : c.player.done <;> simp [hc, hd]
  · unfold VoiceState.completionStep
    by_cases hw : s.waitingForCompletion && s.playNextSong <;> simp [hw]

theorem playedOrder_spec (l : List VoiceEntry) :
    ∀ s : VoiceState, s.songs = l → s.waitingForCompletion = false →
      (∀ e ∈ l, e.player.done = false) →
      VoiceState.playedOrder l.length s = l := by
  induction l with
  | nil =>
      intro s hs hw hdone
      simp [VoiceState.playedOrder]
  | cons e rest ih =>
      intro s hs hw hdone
      have hde : e.player.done = false := hdone e (List.mem_cons_self e rest)
      have hcyc : VoiceState.playCycle s = some (e,
          { s with current := some { e with player := { e.player with done := true } },
                   playNextSong := true, songs := rest, waitingForCompletion := false }) := by
        simp [VoiceState.playCycle, VoiceState.dequeueStep, VoiceState.finishCurrent,
          VoiceState.completionStep, VoiceState.toggle_next, Player.stop, hw, hs, hde]
      simp only [List.length_cons, VoiceState.playedOrder, hcyc, List.cons.injEq, true_and]
      exact ih _ rfl rfl fun x hx => hdone x (List.mem_cons_of_mem e hx)

/-- C4: entries play in strict FIFO order: running the scheduling loop over
the whole queue (each entry completing naturally) dequeues exactly the
enqueued sequence; the loop always dequeues the head of the queue into
`current`; and a forced skip (`VoiceState.skip`) only stops the current
entry — it never reorders, drops or duplicates the remaining queue and
keeps the same current entry. -/
theorem c4_fifo_order (s : VoiceState) (h1 : s.waitingForCompletion = false)
    (h2 : ∀ e ∈ s.songs, e.player.done = false) :
    VoiceState.playedOrder s.songs.length s = s.songs
    ∧ (∀ t : VoiceState, (VoiceState.skip t).songs = t.songs
        ∧ (VoiceState.skip t).current.map VoiceEntry.requester
            = t.current.map VoiceEntry.requester)
    ∧ (∀ (t : VoiceState) (e : VoiceEntry) (rest : List VoiceEntry),
        t.waitingForCompletion = false → t.songs = e :: rest →
        (VoiceState.dequeueStep t).current = some e
          ∧ (VoiceState.dequeueStep t).songs = rest) := by
  refine ⟨playedOrder_spec s.songs s rfl h1 h2,
    fun t => ⟨skip_songs t, skip_current_requester t⟩, fun t e rest hw hs => ?_⟩
  constructor <;> simp [VoiceState.dequeueStep, hw, hs]

/-- An idle example channel with two entries queued. -/
def exIdleState : VoiceState := ⟨none, some 0, false, [exEntryA, exEntryB], ∅, false⟩

/-- C4 witness: the two queued example entries play in their enqueue
order. -/
theorem c4_fifo_order_witness :
    VoiceState.playedOrder 2 exIdleState = [exEntryA, exEntryB] :=
  (c4_fifo_order exIdleState rfl (by decide)).1

end AuroraMusic

namespace AuroraMusic

/-- C5 counterexample: `play` on a server with no registry entry, issued by
a user who is in no voice channel, fails (summon returns False) yet leaves
behind a freshly created registry entry for the channel — the playback
state is NOT left exactly as it was before the call. -/
theorem c5_orphan_counterexample :
    (Music.play ⟨[]⟩ 7 1 9 none true none).1 = PlayResult.summonFailed
    ∧ (Music.play ⟨[]⟩ 7 1 9 none true none).2 ≠ (⟨[]⟩ : Music)
    ∧ lookupVS (Music.play ⟨[]⟩ 7 1 9 none true none).2.voice_states 7
        = some initialVoiceState := by
  decide

/-- C5 amended: on a failed `play` no queue/current/vote state is mutated,
but line 138 calls `get_voice_state` before any connect attempt, so a
failed summon (author in no voice channel) or a first connect that raises
leaves an orphaned, freshly created registry entry (empty queue, no
current, no votes, no transport); a source-resolution failure on an
already-connected channel leaves the registry exactly unchanged, and a
failed `join` (which connects before touching the registry) leaves the
registry exactly unchanged. -/
theorem c5_failure_state_amended (m : Music) (sid authorId msgChannel ch : Nat)
    (s : VoiceState) (conn : Bool) (p? : Option Player) (avc : Option Nat) :
    (lookupVS m.voice_states sid = none →
      Music.play m sid authorId msgChannel none conn p?
        = (PlayResult.summonFailed, ⟨m.voice_states ++ [(sid, initialVoiceState)]⟩))
    ∧ (lookupVS m.voice_states sid = none →
      Music.play m sid authorId msgChannel (some ch) false p?
        = (PlayResult.clientException, ⟨m.voice_states ++ [(sid, initialVoiceState)]⟩))
    ∧ (lookupVS m.voice_states sid = some s → s.voice.isSome = true →
      Music.play m sid authorId msgChannel avc conn none = (PlayResult.ytdlError, m))
    ∧ Music.join m sid (some ch) false = (JoinResult.inAnotherVoiceChannel, m)
    ∧ (initialVoiceState.songs = [] ∧ initialVoiceState.current = none
        ∧ initialVoiceState.skip_votes = ∅ ∧ initialVoiceState.voice = none) := by
  refine ⟨?_, ?_, ?_, ?_, rfl, rfl, rfl, rfl⟩
  · intro h
    simp [Music.play, Music.get_voice_state, h, initialVoiceState]
  · intro h
    simp [Music.play, Music.get_voice_state, h, initialVoiceState]
  · intro h hv
    obtain ⟨w, hw⟩ := Option.isSome_iff_exists.mp hv
    simp [Music.play, Music.get_voice_state, h, hw, playYtdl]
  · simp [Music.join]

/-- C5 witness: a summon failure on a fresh registry creates exactly the
orphan entry, and a resolution failure on the connected example channel
changes nothing. -/
theorem c5_failure_state_amended_witness :
    Music.play (⟨[]⟩ : Music) 7 1 9 none true none
        = (PlayResult.summonFailed, ⟨[] ++ [(7, initialVoiceState)]⟩)
    ∧ Music.play exMusic 7 1 9 none true none = (PlayResult.ytdlError, exMusic) :=
  ⟨(c5_failure_state_amended ⟨[]⟩ 7 1 9 0 initialVoiceState true none none).1 rfl,
   (c5_failure_state_amended exMusic 7 1 9 0 exState true none none).2.2.1 (by decide)
     (by decide)⟩

theorem stop_absent {m : Music} {sid : Nat} (h : lookupVS m.voice_states sid = none) :
    Music.stop m sid = m := by
  have hip : initialVoiceState.is_playing = false := rfl
  unfold Music.stop Music.get_voice_state
  rw [h]
  simp only [hip, Bool.false_eq_true, if_false]
  rw [setVS_append_last h, eraseVS_append h]

theorem stop_removes {m : Music} {sid : Nat}
    (h : (m.voice_states.map Prod.fst).Nodup) :
    lookupVS (Music.stop m sid).voice_states sid = none := by
  rcases hl : lookupVS m.voice_states sid with _ | s
  · rw [stop_absent hl, hl]
  · unfold Music.stop Music.get_voice_state
    rw [hl]
    apply lookupVS_eraseVS_nodup
    rw [setVS_keys]
    exact h

/-- C6: `stop` is idempotent: a second `stop` on an already-stopped channel
(whose registry binding was removed by the first) rebuilds a transient
fresh state inside `get_voice_state`, then deletes it again inside the
swallowed-error block, leaving every channel's state exactly as it was and
raising nothing; in particular on a registry without the channel `stop` is
the identity. -/
theorem c6_stop_idempotent (m : Music) (sid : Nat)
    (h : (m.voice_states.map Prod.fst).Nodup) :
    Music.stop (Music.stop m sid) sid = Music.stop m sid
    ∧ (lookupVS m.voice_states sid = none → Music.stop m sid = m) := by
  exact ⟨stop_absent (stop_removes h), fun hn => stop_absent hn⟩

/-- C6 witness: stopping the example channel twice equals stopping it
once. -/
theorem c6_stop_idempotent_witness :
    Music.stop (Music.stop exMusic 7) 7 = Music.stop exMusic 7 :=
  (c6_stop_idempotent exMusic 7 (by decide)).1

end AuroraMusic

namespace AuroraMusic

/-- C7 counterexample: a state whose transport is not connected
(`voice = none`) but whose current entry exists and is not finished:
`is_playing` returns false although the claim's condition — current
non-null and source not finished — holds, because lines 36-37 also require
`voice` to be non-null. -/
theorem c7_is_playing_counterexample :
    (⟨some exEntryA, none, false, [], ∅, true⟩ : VoiceState).is_playing = false
    ∧ (⟨some exEntryA, none, false, [], ∅, true⟩ : VoiceState).current
        ≠ none
    ∧ (⟨some exEntryA, none, false, [], ∅, true⟩ : VoiceState).current.map
        (fun c => c.player.done) = some false := by
  decide

/-- C7 amended: `is_playing` returns true iff the transport is connected
(`voice` non-null) AND `current` is non-null AND the current entry's
source reports not finished; as a plain function of the state it mutates
nothing. -/
theorem c7_is_playing_amended (s : VoiceState) :
    s.is_playing = true ↔
      (s.voice ≠ none ∧ ∃ c, s.current = some c ∧ c.player.done = false) := by
  rw [is_playing_iff]
  constructor
  · rintro ⟨v, c, hv, hc, hd⟩
    exact ⟨by simp [hv], c, hc, hd⟩
  · rintro ⟨hv, c, hc, hd⟩
    rcases Option.ne_none_iff_exists'.mp hv with ⟨v, hv2⟩
    exact ⟨v, c, hv2, hc, hd⟩

theorem pause_eq_of_paused {p : Player} (h : p.paused = true) : Player.pause p = p := by
  obtain ⟨d, ps, vol⟩ := p
  cases ps
  · exact absurd h (by simp)
  · rfl

theorem resume_eq_of_unpaused {p : Player} (h : p.paused = false) : Player.resume p = p := by
  obtain ⟨d, ps, vol⟩ := p
  cases ps
  · rfl
  · exact absurd h (by simp)

theorem resume_pause {p : Player} (h : p.paused = false) :
    Player.resume (Player.pause p) = p := by
  obtain ⟨d, ps, vol⟩ := p
  cases ps
  · rfl
  · exact absurd h (by simp)

theorem is_playing_of (s : VoiceState) {v : Nat} {c : VoiceEntry} (hv : s.voice = some v)
    (hc : s.current = some c) (hd : c.player.done = false) : s.is_playing = true := by
  simp [VoiceState.is_playing, Player.is_done, hv, hc, hd]

theorem is_playing_none {s : VoiceState} (hc : s.current = none) : s.is_playing = false := by
  unfold VoiceState.is_playing
  rcases hv : s.voice with _ | v <;> simp [hv, hc]

theorem music_pause_eq {m : Music} {sid : Nat} {s : VoiceState} {c : VoiceEntry}
    (h : lookupVS m.voice_states sid = some s) (hc : s.current = some c)
    (hip : s.is_playing = true) :
    Music.pause m sid =
      (⟨setVS sid { s with current := some { c with player := Player.pause c.player } }
          m.voice_states⟩, [SourceCall.pauseCall]) := by
  simp [Music.pause, Music.get_voice_state, h, hip, hc]

theorem music_resume_eq {m : Music} {sid : Nat} {s : VoiceState} {c : VoiceEntry}
    (h : lookupVS m.voice_states sid = some s) (hc : s.current = some c)
    (hip : s.is_playing = true) :
    Music.resume m sid =
      (⟨setVS sid { s with current := some { c with player := Player.resume c.player } }
          m.voice_states⟩, [SourceCall.resumeCall]) := by
  simp [Music.resume, Music.get_voice_state, h, hip, hc]

/-- C8 amended: pause-then-resume on a Playing (unpaused) entry restores
the registry exactly (same current entry, queue and vote set); pause and
resume on an Idle channel (no current entry) forward nothing and change
nothing; but pause on an already-Paused channel and resume on an unpaused
Playing channel DO forward the call to the source — both commands are
gated only on `is_playing()`, which stays true while paused — while
leaving all registry state unchanged. -/
theorem c8_pause_resume_amended (m : Music) (sid : Nat) (s : VoiceState)
    (h : lookupVS m.voice_states sid = some s) :
    (∀ c v, s.current = some c → s.voice = some v → c.player.done = false →
        c.player.paused = false →
        (Music.resume (Music.pause m sid).1 sid).1 = m
        ∧ (Music.pause m sid).2 = [SourceCall.pauseCall])
    ∧ (s.current = none →
        Music.pause m sid = (m, []) ∧ Music.resume m sid = (m, []))
    ∧ (∀ c v, s.current = some c → s.voice = some v → c.player.done = false →
        c.player.paused = true →
        Music.pause m sid = (m, [SourceCall.pauseCall]))
    ∧ (∀ c v, s.current = some c → s.voice = some v → c.player.done = false →
        c.player.paused = false →
        Music.resume m sid = (m, [SourceCall.resumeCall])) := by
  refine ⟨?_, ?_, ?_, ?_⟩
  · intro c v hc hv hd hps
    have hip : s.is_playing = true := is_playing_of s hv hc hd
    have hpause := music_pause_eq h hc hip
    constructor
    · rw [hpause]
      have hlP : lookupVS
          (setVS sid { s with current := some { c with player := Player.pause c.player } }
            m.voice_states) sid
          = some { s with current := some { c with player := Player.pause c.player } } := by
        rw [lookupVS_setVS, h]
        rfl
      have hcP : ({ s with current := some { c with player := Player.pause c.player } } :
          VoiceState).current = some { c with player := Player.pause c.player } := rfl
      have hvP : ({ s with current := some { c with player := Player.pause c.player } } :
          VoiceState).voice = some v := hv
      have hdP : ({ c with player := Player.pause c.player } : VoiceEntry).player.done
          = false := hd
      have hipP := is_playing_of _ hvP hcP hdP
      rw [music_resume_eq hlP hcP hipP]
      have hback : ({ { s with current := some { c with player := Player.pause c.player } } with
          current := some { { c with player := Player.pause c.player } with
            player := Player.resume (Player.pause c.player) } } : VoiceState) = s := by
        rw [resume_pause hps]
        show ({ s with current := some c } : VoiceState) = s
        rw [← hc]
      rw [hback, setVS_setVS, setVS_lookup_eq h]
    · rw [hpause]
  · intro hc0
    have hip : s.is_playing = false := is_playing_none hc0
    constructor
    · simp [Music.pause, Music.get_voice_state, h, hip]
    · simp [Music.resume, Music.get_voice_state, h, hip]
  · intro c v hc hv hd hps
    have hip : s.is_playing = true := is_playing_of s hv hc hd
    rw [music_pause_eq h hc hip]
    have hstate : ({ s with current := some { c with player := Player.pause c.player } } :
        VoiceState) = s := by
      rw [pause_eq_of_paused hps]
      show ({ s with current := some c } : VoiceState) = s
      rw [← hc]
    rw [hstate, setVS_lookup_eq h]
  · intro c v hc hv hd hps
    have hip : s.is_playing = true := is_playing_of s hv hc hd
    rw [music_resume_eq h hc hip]
    have hstate : ({ s with current := some { c with player := Player.resume c.player } } :
        VoiceState) = s := by
      rw [resume_eq_of_unpaused hps]
      show ({ s with current := some c } : VoiceState) = s
      rw [← hc]
    rw [hstate, setVS_lookup_eq h]

/-- C8 witness: pause then resume on the playing example channel restores
the registry, and the pause command forwarded exactly one pause call. -/
theorem c8_pause_resume_amended_witness :
    (Music.resume (Music.pause exMusic 7).1 7).1 = exMusic
    ∧ (Music.pause exMusic 7).2 = [SourceCall.pauseCall] :=
  (c8_pause_resume_amended exMusic 7 exState (by decide)).1 exEntryA 0 rfl rfl rfl rfl

/-- An already-paused example entry/state/registry. -/
def exPausedEntry : VoiceEntry := ⟨0, 9, ⟨false, true, 1⟩⟩

/-- A channel currently Paused on `exPausedEntry`. -/
def exPausedState : VoiceState := ⟨some exPausedEntry, some 0, false, [], ∅, true⟩

/-- A registry holding the paused channel under server 7. -/
def exPausedMusic : Music := ⟨[(7, exPausedState)]⟩

/-- C8 counterexample: on an already-Paused channel the `pause` command is
gated only on `is_playing()` — still true while paused — so a `pause()`
call IS forwarded to the source, contradicting the claim's "no call
forwarded"; the registry state itself is unchanged. -/
theorem c8_pause_forwards_counterexample :
    exPausedState.current.map (fun c => c.player.paused) = some true
    ∧ (Music.pause exPausedMusic 7).2 = [SourceCall.pauseCall]
    ∧ (Music.pause exPausedMusic 7).1 = exPausedMusic := by
  decide

end AuroraMusic

namespace AuroraMusic

/-- C9 counterexample: `volume 300` while the example entry plays sets the
source volume to 300/100 = 3, which is outside the settable range 0.0–2.0:
line 167 divides by 100 with no clamping. -/
theorem c9_volume_counterexample :
    currentVolume (Music.volume exMusic 7 300) 7 = some (((300 : Int) : Rat) / 100)
    ∧ ((300 : Int) : Rat) / 100 = 3
    ∧ ¬ (((300 : Int) : Rat) / 100 ≤ 2) := by
  refine ⟨rfl, by norm_num, by norm_num⟩

/-- C9 amended: while a song is playing, `volume percent` sets the current
source's volume to percent/100 with no clamping, so the result lies within
the settable range 0.0–2.0 exactly when 0 ≤ percent ≤ 200; when nothing is
playing the registry is left unchanged. -/
theorem c9_volume_amended (m : Music) (sid : Nat) (v : Int) (s : VoiceState)
    (h : lookupVS m.voice_states sid = some s) :
    (s.is_playing = true →
      currentVolume (Music.volume m sid v) sid = some ((v : Rat) / 100)
      ∧ ((0 ≤ (v : Rat) / 100 ∧ (v : Rat) / 100 ≤ 2) ↔ (0 ≤ v ∧ v ≤ 200)))
    ∧ (s.is_playing = false → Music.volume m sid v = m) := by
  constructor
  · intro hip
    obtain ⟨w, c, hv, hc, hd⟩ := (is_playing_iff s).mp hip
    constructor
    · have hm : Music.volume m sid v =
          ⟨setVS sid { s with current := some { c with player :=
              { c.player with volume := (v : Rat) / 100 } } } m.voice_states⟩ := by
        simp [Music.volume, Music.get_voice_state, h, hip, hc]
      rw [hm]
      simp [currentVolume, lookupVS_setVS, h]
    · have h100 : (0 : Rat) < 100 := by norm_num
      rw [le_div_iff₀ h100, div_le_iff₀ h100]
      have hz : (0 : Rat) * 100 = 0 := by norm_num
      have ht : (2 : Rat) * 100 = 200 := by norm_num
      rw [hz, ht]
      constructor
      · rintro ⟨h1, h2⟩
        exact ⟨by exact_mod_cast h1, by exact_mod_cast h2⟩
      · rintro ⟨h1, h2⟩
        exact ⟨by exact_mod_cast h1, by exact_mod_cast h2⟩
  · intro hip
    simp [Music.volume, Music.get_voice_state, h, hip]

/-- C9 witness: `volume 50` on the playing example channel sets 50/100,
inside the settable range since 0 ≤ 50 ≤ 200. -/
theorem c9_volume_amended_witness :
    currentVolume (Music.volume exMusic 7 50) 7 = some (((50 : Int) : Rat) / 100)
    ∧ ((0 ≤ ((50 : Int) : Rat) / 100 ∧ ((50 : Int) : Rat) / 100 ≤ 2)
        ↔ (0 ≤ (50 : Int) ∧ (50 : Int) ≤ 200)) :=
  (c9_volume_amended exMusic 7 50 exState (by decide)).1 (by decide)

/-- C10: the `playing` command reports NOT_PLAYING iff `current` is null;
whenever `current` is non-null it reports that entry as now playing, even
when the entry's source has already finished — in the window after a
natural completion and before the next dequeue, the status names the
finished entry while `is_playing` returns false. -/
theorem c10_status_query (m : Music) (sid : Nat) (s : VoiceState)
    (h : lookupVS m.voice_states sid = some s) :
    ((Music.playing m sid).1 = Status.notPlaying ↔ s.current = none)
    ∧ (∀ c, s.current = some c → (Music.playing m sid).1 = Status.nowPlaying c)
    ∧ (∀ c, s.current = some c → c.player.done = true →
        (Music.playing m sid).1 = Status.nowPlaying c ∧ s.is_playing = false) := by
  rcases hc : s.current with _ | c
  · have hpl : (Music.playing m sid).1 = Status.notPlaying := by
      simp [Music.playing, Music.get_voice_state, h, hc]
    refine ⟨by simp [hpl, hc], ?_, ?_⟩
    · intro c2 hc2
      exact Option.noConfusion hc2
    · intro c2 hc2 hd
      exact Option.noConfusion hc2
  · have hpl : (Music.playing m sid).1 = Status.nowPlaying c := by
      simp [Music.playing, Music.get_voice_state, h, hc]
    refine ⟨by simp [hpl, hc], ?_, ?_⟩
    · intro c2 hc2
      obtain rfl := Option.some.inj hc2
      exact hpl
    · intro c2 hc2 hd
      obtain rfl := Option.some.inj hc2
      refine ⟨hpl, ?_⟩
      unfold VoiceState.is_playing
      rcases hv : s.voice with _ | w <;> simp [hv, hc, Player.is_done, hd]

/-- An example entry whose source has already finished. -/
def exDoneEntry : VoiceEntry := ⟨0, 9, ⟨true, false, 1⟩⟩

/-- The window after `exDoneEntry` finished naturally and before the next
dequeue: `current` still holds the finished entry. -/
def exDoneState : VoiceState := ⟨some exDoneEntry, some 0, true, [], ∅, true⟩

/-- A registry holding the finished-entry channel under server 7. -/
def exDoneMusic : Music := ⟨[(7, exDoneState)]⟩

/-- C10 witness: in the post-completion window the status query names the
finished entry while `is_playing` reports false. -/
theorem c10_status_query_witness :
    (Music.playing exDoneMusic 7).1 = Status.nowPlaying exDoneEntry
    ∧ exDoneState.is_playing = false :=
  (c10_status_query exDoneMusic 7 exDoneState (by decide)).2.2 exDoneEntry rfl rfl

end AuroraMusic
